import Mathlib

/-!
Shallow embedding of `visitoolkit_eventsystem/eventsystem.py`.

The Python module implements a lightweight event system: an `EventSystem`
instance holds an ordered list of handlers (`_handler_list`); `fire` takes a
snapshot of that list and, in synchronous mode, invokes each handler in order,
turning a normal return into a `(True, result, handler)` entry and a raised
exception into a `(False, error_info, handler)` entry; in asynchronous mode it
enqueues one `(handler, args, kwargs)` work item per handler into a shared
queue and returns `(None, None, handler)` entries.  A shared background thread
(`_AsyncExecutorThread`) drains that queue and keeps a reference count of the
asynchronous-mode instances that own it; its run loop exits when the count
drops to zero.

Handlers are modelled as an abstract type `H`; a handler call takes the fire
arguments (abstract type `A`) plus the current registry (so a handler may
register/unregister on its own `EventSystem` while it runs, as Python
closures can) and yields an outcome (normal return value or raised exception)
together with the possibly-mutated registry.
-/

namespace EventSystemModel

/-- Python runtime values, as far as the event system inspects them:
`fire` checks `isinstance(result, tuple)`, `len(result) == 3` and
`isinstance(result[1], Exception)`, and `_error` slices tuples, so the model
distinguishes tuples, exception instances, exception type objects and
traceback objects from all other (opaque) values. -/
inductive PyVal where
  | vnone : PyVal
  | vint : Int → PyVal
  | vstr : String → PyVal
  | vtuple : List PyVal → PyVal
  | vexcInstance : String → String → PyVal
  | vexcType : String → PyVal
  | vtracebackObj : Nat → PyVal

/-- Outcome of calling one handler: a normal return, or a raised exception
(carrying exception type name, message and a traceback identity, the three
components of Python's `sys.exc_info()`). -/
inductive ExecOutcome where
  | ret : PyVal → ExecOutcome
  | exc : String → String → Nat → ExecOutcome

/-- The `sys.exc_info()` triple `(type, value, traceback)` as a Python tuple. -/
def pyExcInfo (ty msg : String) (tb : Nat) : PyVal :=
  PyVal.vtuple [PyVal.vexcType ty, PyVal.vexcInstance ty msg, PyVal.vtracebackObj tb]

/-- `_execute(handler, ...)`: returns the handler's result on success, and the
`sys.exc_info()` tuple when the handler raised. -/
def executeVal : ExecOutcome → PyVal
  | ExecOutcome.ret v => v
  | ExecOutcome.exc ty msg tb => pyExcInfo ty msg tb

/-- `isinstance(x, Exception)`. -/
def isExceptionInstance : PyVal → Bool
  | PyVal.vexcInstance _ _ => true
  | _ => false

/-- The guard in `fire`:
`isinstance(result, tuple) and len(result) == 3 and isinstance(result[1], Exception)`. -/
def isErrorResult : PyVal → Bool
  | PyVal.vtuple [_, x, _] => isExceptionInstance x
  | _ => false

/-- `_error(exc_info)`: the whole triple when `self._exc_info` and
`self._traceback` hold, `exc_info[:2]` when only `self._exc_info` holds, and
`exc_info[1]` (the exception object) otherwise.  `fire` only applies it to
3-tuples whose middle component is an exception instance. -/
def errorVal (excInfoFlag tbFlag : Bool) (v : PyVal) : PyVal :=
  if excInfoFlag then
    if tbFlag then v
    else
      match v with
      | PyVal.vtuple xs => PyVal.vtuple (xs.take 2)
      | w => w
  else
    match v with
    | PyVal.vtuple xs => xs.getD 1 PyVal.vnone
    | w => w

/-- An `EventSystem` instance: the constructor flags `sync_mode`, `exc_info`
and `traceback`, plus `_handler_list`. -/
structure EventSystem (H : Type) where
  sync_mode : Bool
  exc_info : Bool
  traceback : Bool
  handler_list : List H

/-- One entry of the list returned by `fire`:
`(True, result, handler)`, `(False, error_info, handler)` or
`(None, None, handler)`. -/
inductive ResEntry (H : Type) where
  | success : PyVal → H → ResEntry H
  | failure : PyVal → H → ResEntry H
  | pending : H → ResEntry H

/-- The handler carried by a result entry (the third tuple component). -/
def handlerOf {H : Type} : ResEntry H → H
  | ResEntry.success _ h => h
  | ResEntry.failure _ h => h
  | ResEntry.pending h => h

/-- Everything one `fire` call produces or touches: the returned
`result_list`, the sequence of handlers actually invoked in the caller's
thread (`trace`), the registry as left behind by handler side effects, and
the shared asynchronous queue. -/
structure FireOut (H A : Type) where
  result_list : List (ResEntry H)
  trace : List H
  registry : List H
  async_queue : List (H × A)

/-- The loop body of `fire`, iterating over the fire-time snapshot.  In
synchronous mode each handler runs against the current registry (and may
mutate it); in asynchronous mode the work item `(handler, args, kwargs)` is
put on the shared queue and a pending entry is recorded. -/
def fireGo {H A : Type} (sync excInfoFlag tbFlag : Bool)
    (beh : H → A → List H → ExecOutcome × List H) (a : A) :
    List H → List H → List (H × A) → FireOut H A
  | [], reg, q => ⟨[], [], reg, q⟩
  | h :: rest, reg, q =>
    match sync with
    | true =>
      let p := beh h a reg
      let r := executeVal p.1
      let entry := if isErrorResult r then
          ResEntry.failure (errorVal excInfoFlag tbFlag r) h
        else
          ResEntry.success r h
      let t := fireGo sync excInfoFlag tbFlag beh a rest p.2 q
      ⟨entry :: t.result_list, h :: t.trace, t.registry, t.async_queue⟩
    | false =>
      let t := fireGo sync excInfoFlag tbFlag beh a rest reg (q ++ [(h, a)])
      ⟨ResEntry.pending h :: t.result_list, t.trace, t.registry, t.async_queue⟩

/-- `fire(*args, **kargs)`: snapshots `_handler_list` under the lock
(`copy.copy`), then loops over the snapshot. -/
def fire {H A : Type} (beh : H → A → List H → ExecOutcome × List H)
    (s : EventSystem H) (a : A) (q : List (H × A)) : FireOut H A :=
  fireGo s.sync_mode s.exc_info s.traceback beh a s.handler_list s.handler_list q

/-- A handler behaviour that never touches the registry. -/
def pureBeh {H A : Type} (beh0 : H → A → ExecOutcome) :
    H → A → List H → ExecOutcome × List H :=
  fun h a reg => (beh0 h a, reg)

/-- `handle(handler)`: `self._handler_list.append(handler)`. -/
def handle {H : Type} (s : EventSystem H) (h : H) : EventSystem H :=
  { s with handler_list := s.handler_list ++ [h] }

/-- A fresh instance with the given constructor flags and no handlers. -/
def emptyES {H : Type} (sync excInfoFlag tbFlag : Bool) : EventSystem H :=
  ⟨sync, excInfoFlag, tbFlag, []⟩

/-- A sequence of `handle` calls. -/
def handleAll {H : Type} (s : EventSystem H) (hs : List H) : EventSystem H :=
  hs.foldl handle s

/-- Python's `list.remove`: drop the first occurrence equal to the argument,
or report failure when no occurrence exists. -/
def removeFirst {H : Type} [DecidableEq H] : List H → H → Option (List H)
  | [], _ => none
  | x :: xs, h =>
    if x = h then some xs
    else Option.map (fun ys => x :: ys) (removeFirst xs h)

/-- `unhandle(handler)`: `self._handler_list.remove(handler)`, re-raising
`ValueError` (with the module's message) when the handler is absent; on that
failure the instance state is untouched. -/
def unhandle {H : Type} [DecidableEq H] (s : EventSystem H) (h : H) :
    EventSystem H × Option String :=
  match removeFirst s.handler_list h with
  | some l => ({ s with handler_list := l }, none)
  | none => (s, some "Handler is not handling this event, so cannot unhandle it.")

/-- `getHandlerCount()`: `len(self._handler_list)`. -/
def getHandlerCount {H : Type} (s : EventSystem H) : Nat :=
  s.handler_list.length

/-- `clear()`: `self._handler_list = []`. -/
def clear {H : Type} (s : EventSystem H) : EventSystem H :=
  { s with handler_list := [] }

/-! ## The shared asynchronous executor thread

`_AsyncExecutorThread` keeps `_nof_eventsources` (guarded by its own lock) and
its `run` loop spins `while self._nof_eventsources > 0`.  Once `run` returns,
the Python thread object is dead and cannot be restarted; the model records
that with a `terminated` flag that is never cleared. -/

/-- State of the shared `_AsyncExecutorThread`: its reference count of owning
asynchronous-mode instances and whether its `run` loop has already exited. -/
structure AsyncThread where
  nof_eventsources : Int
  terminated : Bool
deriving DecidableEq

/-- `inc_nof_eventsources()`. -/
def inc_nof_eventsources (t : AsyncThread) : AsyncThread :=
  { t with nof_eventsources := t.nof_eventsources + 1 }

/-- `dec_nof_eventsources()`. -/
def dec_nof_eventsources (t : AsyncThread) : AsyncThread :=
  { t with nof_eventsources := t.nof_eventsources - 1 }

/-- `_AsyncExecutorThread.__init__` followed by `start()`: the constructor
sets `self._nof_eventsources = 1` and the started loop is live. -/
def newAsyncThread : AsyncThread :=
  ⟨1, false⟩

/-- The guard of the `run` loop: `self._nof_eventsources > 0`. -/
def loopContinues (t : AsyncThread) : Bool :=
  decide (0 < t.nof_eventsources)

/-- One observation of the `run` loop's guard: when the reference count is no
longer positive the loop exits and the thread is dead for good. -/
def observeGuard (t : AsyncThread) : AsyncThread :=
  if 0 < t.nof_eventsources then t else { t with terminated := true }

/-- The class-level shared state of `EventSystem`: `_async_queue` (whether the
shared queue object has been created) and `_async_thread`. -/
structure AsyncGlobal where
  async_queue_created : Bool
  async_thread : Option AsyncThread
deriving DecidableEq

/-- Module load time: no shared queue, no shared thread. -/
def initialGlobal : AsyncGlobal :=
  ⟨false, none⟩

/-- `_setup_async_thread()`: create the queue if absent; then, if
`_async_thread` is set (truthy — the code never checks liveness), increment
its reference count, otherwise construct and start a fresh thread. -/
def setup_async_thread (g : AsyncGlobal) : AsyncGlobal :=
  match g.async_thread with
  | some t => ⟨true, some (inc_nof_eventsources t)⟩
  | none => ⟨true, some newAsyncThread⟩

/-- `__del__` of an asynchronous-mode instance:
`EventSystem._async_thread.dec_nof_eventsources()`. -/
def delAsyncInstance (g : AsyncGlobal) : AsyncGlobal :=
  match g.async_thread with
  | some t => ⟨g.async_queue_created, some (dec_nof_eventsources t)⟩
  | none => g

/-- The worker thread polling its guard, seen from the shared state. -/
def workerPoll (g : AsyncGlobal) : AsyncGlobal :=
  ⟨g.async_queue_created, Option.map observeGuard g.async_thread⟩

/-- Constructing `n` asynchronous-mode instances in sequence (each runs
`_setup_async_thread`). -/
def createAsyncInstances : Nat → AsyncGlobal → AsyncGlobal
  | 0, g => g
  | Nat.succ n, g => createAsyncInstances n (setup_async_thread g)

/-- Disposing `n` asynchronous-mode instances in sequence (each runs
`__del__`). -/
def destroyAsyncInstances : Nat → AsyncGlobal → AsyncGlobal
  | 0, g => g
  | Nat.succ n, g => destroyAsyncInstances n (delAsyncInstance g)

/-! ## Classifiers and concrete inputs used by the theorems below -/

/-- Whether a result entry is a synchronous outcome (`(True, ...)` or
`(False, ...)`, i.e. not a pending `(None, None, handler)` entry). -/
def isSyncEntry {H : Type} : ResEntry H → Bool
  | ResEntry.pending _ => false
  | _ => true

/-- Whether a handler outcome is a raised exception. -/
def isExcOutcome : ExecOutcome → Bool
  | ExecOutcome.exc _ _ _ => true
  | ExecOutcome.ret _ => false

/-- A value a handler can legitimately return that happens to have the shape
`fire` uses to recognise `sys.exc_info()` tuples: a 3-tuple whose second
component is an exception instance. -/
def mischiefVal : PyVal :=
  PyVal.vtuple [PyVal.vnone, PyVal.vexcInstance "ValueError" "boom", PyVal.vnone]

/-- A handler behaviour that returns `mischiefVal` normally (never raises). -/
def mischiefBeh : Nat → Unit → ExecOutcome :=
  fun _ _ => ExecOutcome.ret mischiefVal

/-- A behaviour where handler 1 raises and every other handler returns 3. -/
def raisingBeh : Nat → Unit → ExecOutcome :=
  fun h _ =>
    if h = 1 then ExecOutcome.exc "ValueError" "boom" 7
    else ExecOutcome.ret (PyVal.vint 3)

/-- A registry-preserving behaviour whose handlers all return `None`. -/
def trivialBeh : Nat → Unit → List Nat → ExecOutcome × List Nat :=
  fun _ _ reg => (ExecOutcome.ret PyVal.vnone, reg)

/-- A non-mutating outcome map whose handlers all return `None`. -/
def trivialOutcome : Nat → Unit → ExecOutcome :=
  fun _ _ => ExecOutcome.ret PyVal.vnone

/-- The shared class state after: construct one asynchronous-mode instance,
dispose it (reference count drops to 0), and let the worker's `run` loop
observe the guard and exit. -/
def deadWorkerGlobal : AsyncGlobal :=
  workerPoll (delAsyncInstance (setup_async_thread initialGlobal))

/-! ## Helper lemmas -/

theorem fireGo_sync_trace {H A : Type} (excInfoFlag tbFlag : Bool)
    (beh : H → A → List H → ExecOutcome × List H) (a : A)
    (snap : List H) : ∀ (reg : List H) (q : List (H × A)),
    (fireGo true excInfoFlag tbFlag beh a snap reg q).trace = snap := by
  induction snap with
  | nil => intro reg q; rfl
  | cons h rest ih =>
    intro reg q
    simp only [fireGo, ih]

theorem fireGo_handlers {H A : Type} (sync excInfoFlag tbFlag : Bool)
    (beh : H → A → List H → ExecOutcome × List H) (a : A)
    (snap : List H) : ∀ (reg : List H) (q : List (H × A)),
    ((fireGo sync excInfoFlag tbFlag beh a snap reg q).result_list).map handlerOf
      = snap := by
  induction snap with
  | nil => intro reg q; rfl
  | cons h rest ih =>
    intro reg q
    cases sync with
    | true =>
      simp only [fireGo, List.map_cons, ih]
      split <;> rfl
    | false =>
      simp only [fireGo, List.map_cons, handlerOf, ih]

theorem fireGo_length {H A : Type} (sync excInfoFlag tbFlag : Bool)
    (beh : H → A → List H → ExecOutcome × List H) (a : A)
    (snap reg : List H) (q : List (H × A)) :
    (fireGo sync excInfoFlag tbFlag beh a snap reg q).result_list.length
      = snap.length := by
  have := congrArg List.length (fireGo_handlers sync excInfoFlag tbFlag beh a snap reg q)
  simpa using this

theorem fireGo_pure_registry {H A : Type} (sync excInfoFlag tbFlag : Bool)
    (beh0 : H → A → ExecOutcome) (a : A)
    (snap : List H) : ∀ (reg : List H) (q : List (H × A)),
    (fireGo sync excInfoFlag tbFlag (pureBeh beh0) a snap reg q).registry = reg := by
  induction snap with
  | nil => intro reg q; rfl
  | cons h rest ih =>
    intro reg q
    cases sync with
    | true => simp only [fireGo, pureBeh, ih]
    | false => simp only [fireGo, ih]

theorem handleAll_handler_list {H : Type} (s : EventSystem H) (hs : List H) :
    (handleAll s hs).handler_list = s.handler_list ++ hs := by
  induction hs generalizing s with
  | nil => simp [handleAll]
  | cons h rest ih =>
    simp only [handleAll, List.foldl_cons] at *
    rw [ih]
    simp [handle]

theorem handleAll_flags {H : Type} (s : EventSystem H) (hs : List H) :
    (handleAll s hs).sync_mode = s.sync_mode
      ∧ (handleAll s hs).exc_info = s.exc_info
      ∧ (handleAll s hs).traceback = s.traceback := by
  induction hs generalizing s with
  | nil => exact ⟨rfl, rfl, rfl⟩
  | cons h rest ih =>
    simpa only [handleAll, List.foldl_cons, handle] using ih (handle s h)

theorem removeFirst_of_mem {H : Type} [DecidableEq H] (l : List H) (h : H)
    (hmem : h ∈ l) :
    ∃ l₁ l₂, l = l₁ ++ h :: l₂ ∧ h ∉ l₁ ∧ removeFirst l h = some (l₁ ++ l₂) := by
  induction l with
  | nil => cases hmem
  | cons x xs ih =>
    by_cases hx : x = h
    · refine ⟨[], xs, ?_, ?_, ?_⟩
      · simp [hx]
      · simp
      · simp [removeFirst, hx]
    · have hmem2 : h ∈ xs := by
        cases hmem with
        | head => exact absurd rfl hx
        | tail _ hm => exact hm
      obtain ⟨l₁, l₂, heq, hnot, hrem⟩ := ih hmem2
      refine ⟨x :: l₁, l₂, ?_, ?_, ?_⟩
      · simp [heq]
      · simp only [List.mem_cons, not_or]
        exact ⟨fun hc => hx hc.symm, hnot⟩
      · simp [removeFirst, hx, hrem]

theorem removeFirst_of_not_mem {H : Type} [DecidableEq H] (l : List H) (h : H)
    (hmem : h ∉ l) : removeFirst l h = none := by
  induction l with
  | nil => rfl
  | cons x xs ih =>
    simp only [List.mem_cons, not_or] at hmem
    have hxh : ¬x = h := fun hc => hmem.1 hc.symm
    simp [removeFirst, hxh, ih hmem.2]

theorem removeFirst_length {H : Type} [DecidableEq H] (l : List H) (h : H)
    (l' : List H) (hrem : removeFirst l h = some l') :
    l'.length + 1 = l.length := by
  induction l generalizing l' with
  | nil => cases hrem
  | cons x xs ih =>
    by_cases hx : x = h
    · simp only [removeFirst, if_pos hx, Option.some.injEq] at hrem
      simp [← hrem]
    · simp only [removeFirst, if_neg hx, Option.map_eq_some'] at hrem
      obtain ⟨ys, hys, hl⟩ := hrem
      simp [← hl, ih ys hys]

theorem handleAll_eq {H : Type} (hs : List H) :
    ∀ (s : EventSystem H),
    handleAll s hs = { s with handler_list := s.handler_list ++ hs } := by
  induction hs with
  | nil => intro s; simp [handleAll]
  | cons h rest ih =>
    intro s
    show handleAll (handle s h) rest = _
    rw [ih (handle s h)]
    simp [handle]

theorem handleAll_emptyES {H : Type} (sync excInfoFlag tbFlag : Bool) (hs : List H) :
    handleAll (emptyES sync excInfoFlag tbFlag) hs
      = ⟨sync, excInfoFlag, tbFlag, hs⟩ := by
  rw [handleAll_eq]
  simp [emptyES]

theorem fireGo_async {H A : Type} (excInfoFlag tbFlag : Bool)
    (beh : H → A → List H → ExecOutcome × List H) (a : A)
    (snap : List H) : ∀ (reg : List H) (q : List (H × A)),
    fireGo false excInfoFlag tbFlag beh a snap reg q
      = ⟨snap.map ResEntry.pending, [], reg, q ++ snap.map (fun h => (h, a))⟩ := by
  induction snap with
  | nil => intro reg q; simp [fireGo]
  | cons h rest ih =>
    intro reg q
    simp only [fireGo, ih, List.map_cons]
    simp

theorem fireGo_sync_entries {H A : Type} (excInfoFlag tbFlag : Bool)
    (beh : H → A → List H → ExecOutcome × List H) (a : A)
    (snap : List H) : ∀ (reg : List H) (q : List (H × A)),
    ∀ e ∈ (fireGo true excInfoFlag tbFlag beh a snap reg q).result_list,
      isSyncEntry e = true := by
  induction snap with
  | nil => intro reg q e he; cases he
  | cons h rest ih =>
    intro reg q e he
    simp only [fireGo, List.mem_cons] at he
    cases he with
    | inl heq =>
      rw [heq]
      split <;> rfl
    | inr hmem => exact ih _ _ e hmem

theorem fireGo_pure_result_list {H A : Type} (excInfoFlag tbFlag : Bool)
    (beh0 : H → A → ExecOutcome) (a : A) (snap : List H) :
    ∀ (reg : List H) (q : List (H × A)),
    (fireGo true excInfoFlag tbFlag (pureBeh beh0) a snap reg q).result_list
      = snap.map (fun h =>
          match beh0 h a with
          | ExecOutcome.ret v =>
            if isErrorResult v then ResEntry.failure (errorVal excInfoFlag tbFlag v) h
            else ResEntry.success v h
          | ExecOutcome.exc ty msg tb =>
            ResEntry.failure
              (if excInfoFlag then
                if tbFlag then
                  PyVal.vtuple [PyVal.vexcType ty, PyVal.vexcInstance ty msg,
                    PyVal.vtracebackObj tb]
                else PyVal.vtuple [PyVal.vexcType ty, PyVal.vexcInstance ty msg]
              else PyVal.vexcInstance ty msg) h) := by
  induction snap with
  | nil => intro reg q; rfl
  | cons h rest ih =>
    intro reg q
    simp only [fireGo, pureBeh, List.map_cons, ih]
    cases hout : beh0 h a with
    | ret v => simp [executeVal, hout]
    | exc ty msg tb =>
      have herr : isErrorResult (executeVal (ExecOutcome.exc ty msg tb)) = true := by
        simp [executeVal, pyExcInfo, isErrorResult, isExceptionInstance]
      simp only [hout, herr, if_true]
      cases excInfoFlag <;> cases tbFlag <;>
        simp [executeVal, pyExcInfo, errorVal]

theorem createAsync_live (n : Nat) : ∀ (k : Int) (b : Bool),
    createAsyncInstances n ⟨true, some ⟨k, b⟩⟩ = ⟨true, some ⟨k + n, b⟩⟩ := by
  induction n with
  | zero => intro k b; simp [createAsyncInstances]
  | succ m ih =>
    intro k b
    show createAsyncInstances m (setup_async_thread ⟨true, some ⟨k, b⟩⟩) = _
    rw [show setup_async_thread ⟨true, some ⟨k, b⟩⟩
          = ⟨true, some ⟨k + 1, b⟩⟩ from rfl]
    rw [ih (k + 1) b]
    have harith : k + 1 + (m : Int) = k + ((m + 1 : Nat) : Int) := by
      push_cast
      ring
    rw [harith]

theorem destroyAsync_count (n : Nat) : ∀ (qc : Bool) (k : Int) (b : Bool),
    destroyAsyncInstances n ⟨qc, some ⟨k, b⟩⟩ = ⟨qc, some ⟨k - n, b⟩⟩ := by
  induction n with
  | zero => intro qc k b; simp [destroyAsyncInstances]
  | succ m ih =>
    intro qc k b
    show destroyAsyncInstances m (delAsyncInstance ⟨qc, some ⟨k, b⟩⟩) = _
    rw [show delAsyncInstance ⟨qc, some ⟨k, b⟩⟩
          = ⟨qc, some ⟨k - 1, b⟩⟩ from rfl]
    rw [ih qc (k - 1) b]
    have harith : k - 1 - (m : Int) = k - ((m + 1 : Nat) : Int) := by
      push_cast
      ring
    rw [harith]

/-! ## Claim theorems -/

/-- Claim C1: for every sequence of `handle` calls (duplicates included) and
every synchronous `fire`, the handlers are invoked in exactly registration
order, once per registration, and the returned list has one entry per
snapshot element with the i-th entry carrying the i-th registered handler. -/
theorem fire_sync_invokes_in_registration_order {H A : Type}
    (excInfoFlag tbFlag : Bool) (beh : H → A → List H → ExecOutcome × List H)
    (hs : List H) (a : A) (q : List (H × A)) :
    (fire beh (handleAll (emptyES true excInfoFlag tbFlag) hs) a q).trace = hs
    ∧ ((fire beh (handleAll (emptyES true excInfoFlag tbFlag) hs) a q).result_list).map
        handlerOf = hs
    ∧ (fire beh (handleAll (emptyES true excInfoFlag tbFlag) hs) a q).result_list.length
        = hs.length := by
  rw [handleAll_emptyES]
  exact ⟨fireGo_sync_trace excInfoFlag tbFlag beh a hs hs q,
    fireGo_handlers true excInfoFlag tbFlag beh a hs hs q,
    fireGo_length true excInfoFlag tbFlag beh a hs hs q⟩

/-- Claim C2 (counterexample): a synchronous handler that NORMALLY RETURNS a
3-tuple whose second component is an exception instance does not get a
Success entry carrying that value: `fire` misclassifies the return value as
an error and produces a Failure entry. -/
theorem fire_success_claim_counterexample :
    (fire (pureBeh mischiefBeh) (⟨true, true, false, [0]⟩ : EventSystem Nat) () []).result_list
      = [ResEntry.failure
          (PyVal.vtuple [PyVal.vnone, PyVal.vexcInstance "ValueError" "boom"]) 0]
    ∧ ¬ (fire (pureBeh mischiefBeh) (⟨true, true, false, [0]⟩ : EventSystem Nat) () []).result_list
      = [ResEntry.success mischiefVal 0] := by
  constructor
  · rfl
  · intro hc
    have h2 : ResEntry.failure
          (PyVal.vtuple [PyVal.vnone, PyVal.vexcInstance "ValueError" "boom"]) (0 : Nat)
          :: ([] : List (ResEntry Nat))
        = ResEntry.success mischiefVal 0 :: [] := hc
    injection h2 with hhead _
    exact ResEntry.noConfusion hhead

/-- Claim C2 (amended): in synchronous mode each entry is classified from the
handler's outcome: a raised error yields a Failure entry whose payload is the
(type, value, traceback) triple when `exc_info` and `traceback` both hold,
the (type, value) pair when only `exc_info` holds, and the exception object
otherwise; a normal return of v yields a Success entry carrying v — except
that a returned v which is itself a 3-tuple with an exception instance in
second position is misclassified as a Failure whose payload is derived from v
by the same verbosity rules. -/
theorem fire_sync_result_classification {H A : Type} (excInfoFlag tbFlag : Bool)
    (beh0 : H → A → ExecOutcome) (hs : List H) (a : A) (q : List (H × A)) :
    (fire (pureBeh beh0) ⟨true, excInfoFlag, tbFlag, hs⟩ a q).result_list
      = hs.map (fun h =>
          match beh0 h a with
          | ExecOutcome.ret v =>
            if isErrorResult v then ResEntry.failure (errorVal excInfoFlag tbFlag v) h
            else ResEntry.success v h
          | ExecOutcome.exc ty msg tb =>
            ResEntry.failure
              (if excInfoFlag then
                if tbFlag then
                  PyVal.vtuple [PyVal.vexcType ty, PyVal.vexcInstance ty msg,
                    PyVal.vtracebackObj tb]
                else PyVal.vtuple [PyVal.vexcType ty, PyVal.vexcInstance ty msg]
              else PyVal.vexcInstance ty msg) h) :=
  fireGo_pure_result_list excInfoFlag tbFlag beh0 a hs hs q

/-- Claim C3: when some handler of a synchronous snapshot raises, every
handler of the snapshot is still invoked in order, every snapshot element
gets a Success-or-Failure entry (never a pending one, and one handler's
failure aborts nothing), and each raising handler's entry is a Failure
carrying that handler. -/
theorem fire_sync_failure_isolation {H A : Type} (excInfoFlag tbFlag : Bool)
    (beh0 : H → A → ExecOutcome) (hs : List H) (a : A) (q : List (H × A))
    (hex : ∃ h, h ∈ hs ∧ isExcOutcome (beh0 h a) = true) :
    (fire (pureBeh beh0) ⟨true, excInfoFlag, tbFlag, hs⟩ a q).trace = hs
    ∧ (fire (pureBeh beh0) ⟨true, excInfoFlag, tbFlag, hs⟩ a q).result_list.length
        = hs.length
    ∧ (∀ e ∈ (fire (pureBeh beh0) ⟨true, excInfoFlag, tbFlag, hs⟩ a q).result_list,
        isSyncEntry e = true)
    ∧ (∀ (j : Nat) (h : H), hs[j]? = some h → isExcOutcome (beh0 h a) = true →
        ∃ pay, (fire (pureBeh beh0) ⟨true, excInfoFlag, tbFlag, hs⟩ a q).result_list[j]?
          = some (ResEntry.failure pay h)) := by
  refine ⟨fireGo_sync_trace excInfoFlag tbFlag (pureBeh beh0) a hs hs q,
    fireGo_length true excInfoFlag tbFlag (pureBeh beh0) a hs hs q,
    fireGo_sync_entries excInfoFlag tbFlag (pureBeh beh0) a hs hs q, ?_⟩
  intro j h hj hexc
  have hres := fireGo_pure_result_list excInfoFlag tbFlag beh0 a hs hs q
  rw [show (fire (pureBeh beh0) ⟨true, excInfoFlag, tbFlag, hs⟩ a q).result_list
        = (fireGo true excInfoFlag tbFlag (pureBeh beh0) a hs hs q).result_list from rfl,
    hres, List.getElem?_map, hj]
  cases hout : beh0 h a with
  | ret v => rw [hout] at hexc; cases hexc
  | exc ty msg tb =>
    refine ⟨if excInfoFlag then
        if tbFlag then
          PyVal.vtuple [PyVal.vexcType ty, PyVal.vexcInstance ty msg,
            PyVal.vtracebackObj tb]
        else PyVal.vtuple [PyVal.vexcType ty, PyVal.vexcInstance ty msg]
      else PyVal.vexcInstance ty msg, ?_⟩
    simp [hout]

/-- Claim C3 (witness): registry [0, 1, 2] where handler 1 raises. -/
theorem fire_sync_failure_isolation_witness :
    (∃ h, h ∈ [0, 1, 2] ∧ isExcOutcome (raisingBeh h ()) = true)
    ∧ ((fire (pureBeh raisingBeh) (⟨true, true, false, [0, 1, 2]⟩ : EventSystem Nat) () []).trace
        = [0, 1, 2]
      ∧ (fire (pureBeh raisingBeh) (⟨true, true, false, [0, 1, 2]⟩ : EventSystem Nat) () []).result_list.length
        = ([0, 1, 2] : List Nat).length
      ∧ (∀ e ∈ (fire (pureBeh raisingBeh) (⟨true, true, false, [0, 1, 2]⟩ : EventSystem Nat) () []).result_list,
          isSyncEntry e = true)
      ∧ (∀ (j : Nat) (h : Nat), ([0, 1, 2] : List Nat)[j]? = some h →
          isExcOutcome (raisingBeh h ()) = true →
          ∃ pay, (fire (pureBeh raisingBeh) (⟨true, true, false, [0, 1, 2]⟩ : EventSystem Nat) () []).result_list[j]?
            = some (ResEntry.failure pay h))) := by
  have hex : ∃ h, h ∈ [0, 1, 2] ∧ isExcOutcome (raisingBeh h ()) = true :=
    ⟨1, by decide, by decide⟩
  exact ⟨hex, fire_sync_failure_isolation true false raisingBeh [0, 1, 2] () [] hex⟩

/-- Claim C4: a synchronous fire iterates over the fire-time snapshot:
whatever the handlers do to the registry while they run, the in-flight fire
invokes exactly the handlers registered at fire-time, in that order, and the
next fire's snapshot is the mutated registry. -/
theorem fire_snapshot_immune_to_mutation {H A : Type} (excInfoFlag tbFlag : Bool)
    (beh : H → A → List H → ExecOutcome × List H) (hs : List H) (a a2 : A)
    (q q2 : List (H × A)) :
    (fire beh ⟨true, excInfoFlag, tbFlag, hs⟩ a q).trace = hs
    ∧ (fire beh ⟨true, excInfoFlag, tbFlag,
        (fire beh ⟨true, excInfoFlag, tbFlag, hs⟩ a q).registry⟩ a2 q2).trace
      = (fire beh ⟨true, excInfoFlag, tbFlag, hs⟩ a q).registry :=
  ⟨fireGo_sync_trace excInfoFlag tbFlag beh a hs hs q,
    fireGo_sync_trace excInfoFlag tbFlag beh a2
      (fire beh ⟨true, excInfoFlag, tbFlag, hs⟩ a q).registry
      (fire beh ⟨true, excInfoFlag, tbFlag, hs⟩ a q).registry q2⟩

/-- Claim C5: an asynchronous fire enqueues exactly one work item
`(handler, args)` per snapshot handler, at the tail of the shared queue in
snapshot order, invokes no handler itself, and returns one pending entry per
snapshot handler, in order. -/
theorem fire_async_enqueues_pending {H A : Type} (excInfoFlag tbFlag : Bool)
    (beh : H → A → List H → ExecOutcome × List H) (hs : List H) (a : A)
    (q : List (H × A)) :
    (fire beh ⟨false, excInfoFlag, tbFlag, hs⟩ a q).result_list
        = hs.map ResEntry.pending
    ∧ (fire beh ⟨false, excInfoFlag, tbFlag, hs⟩ a q).trace = []
    ∧ (fire beh ⟨false, excInfoFlag, tbFlag, hs⟩ a q).async_queue
        = q ++ hs.map (fun h => (h, a))
    ∧ (fire beh ⟨false, excInfoFlag, tbFlag, hs⟩ a q).result_list.length
        = hs.length := by
  have heq := fireGo_async excInfoFlag tbFlag beh a hs hs q
  rw [show fire beh ⟨false, excInfoFlag, tbFlag, hs⟩ a q
        = fireGo false excInfoFlag tbFlag beh a hs hs q from rfl, heq]
  simp

/-- Claim C6 (code bug exhibit): `_setup_async_thread` only checks the
truthiness of `_async_thread`, never its liveness.  After one asynchronous
instance is created and disposed and the worker's run loop has observed the
zero count and exited (`deadWorkerGlobal`), a newly constructed asynchronous
instance merely increments the dead thread's count to 1: the terminated
worker is kept and no replacement is started, so no live worker exists. -/
theorem setup_async_thread_keeps_dead_worker :
    (setup_async_thread initialGlobal).async_thread
        = some ⟨1, false⟩
    ∧ (delAsyncInstance (setup_async_thread initialGlobal)).async_thread
        = some ⟨0, false⟩
    ∧ deadWorkerGlobal.async_thread = some ⟨0, true⟩
    ∧ (setup_async_thread deadWorkerGlobal).async_thread = some ⟨1, true⟩ := by
  decide

/-- Claim C7: creating N asynchronous-mode instances and then disposing all N
leaves the shared worker with reference count zero; its loop guard
`_nof_eventsources > 0` then fails, so the run loop exits and the thread
terminates. -/
theorem async_refcount_zero_and_loop_stops (n : Nat) (hn : 0 < n) :
    ∃ t : AsyncThread,
      (destroyAsyncInstances n (createAsyncInstances n initialGlobal)).async_thread
          = some t
      ∧ t.nof_eventsources = 0
      ∧ loopContinues t = false
      ∧ (observeGuard t).terminated = true := by
  obtain ⟨m, rfl⟩ : ∃ m, n = m + 1 := ⟨n - 1, by omega⟩
  have hc : createAsyncInstances (m + 1) initialGlobal
      = ⟨true, some ⟨1 + m, false⟩⟩ := by
    show createAsyncInstances m (setup_async_thread initialGlobal) = _
    rw [show setup_async_thread initialGlobal = ⟨true, some ⟨1, false⟩⟩ from rfl]
    exact createAsync_live m 1 false
  rw [hc, destroyAsync_count (m + 1) true (1 + m) false]
  have h0 : (1 : Int) + m - ((m + 1 : Nat) : Int) = 0 := by
    push_cast
    ring
  rw [h0]
  exact ⟨⟨0, false⟩, rfl, rfl, rfl, rfl⟩

/-- Claim C7 (witness): three creations followed by three disposals. -/
theorem async_refcount_zero_and_loop_stops_witness :
    0 < 3 ∧ ∃ t : AsyncThread,
      (destroyAsyncInstances 3 (createAsyncInstances 3 initialGlobal)).async_thread
          = some t
      ∧ t.nof_eventsources = 0
      ∧ loopContinues t = false
      ∧ (observeGuard t).terminated = true :=
  ⟨by decide, async_refcount_zero_and_loop_stops 3 (by decide)⟩

/-- Claim C8: `unhandle` removes exactly the first occurrence equal to the
argument when one exists (and a subsequent fire invokes exactly the remaining
registrations), and fails with the NotRegistered `ValueError` when no
occurrence exists. -/
theorem unhandle_removes_first_or_errors {H A : Type} [DecidableEq H]
    (excInfoFlag tbFlag : Bool) (beh : H → A → List H → ExecOutcome × List H)
    (l : List H) (h : H) (a : A) (q : List (H × A)) :
    (h ∈ l →
      ∃ l₁ l₂, l = l₁ ++ h :: l₂ ∧ h ∉ l₁
        ∧ unhandle (⟨true, excInfoFlag, tbFlag, l⟩ : EventSystem H) h
            = (⟨true, excInfoFlag, tbFlag, l₁ ++ l₂⟩, none)
        ∧ (fire beh ⟨true, excInfoFlag, tbFlag, l₁ ++ l₂⟩ a q).trace = l₁ ++ l₂)
    ∧ (h ∉ l →
      unhandle (⟨true, excInfoFlag, tbFlag, l⟩ : EventSystem H) h
        = (⟨true, excInfoFlag, tbFlag, l⟩,
            some "Handler is not handling this event, so cannot unhandle it.")) := by
  constructor
  · intro hmem
    obtain ⟨l₁, l₂, heq, hnot, hrem⟩ := removeFirst_of_mem l h hmem
    exact ⟨l₁, l₂, heq, hnot, by simp [unhandle, hrem],
      fireGo_sync_trace excInfoFlag tbFlag beh a (l₁ ++ l₂) (l₁ ++ l₂) q⟩
  · intro hmem
    simp [unhandle, removeFirst_of_not_mem l h hmem]

/-- Claim C8 (witness): on [1, 2, 1], unhandling 1 removes the first 1, and
unhandling the absent 3 fails with the NotRegistered error. -/
theorem unhandle_removes_first_or_errors_witness :
    ((1 : Nat) ∈ [1, 2, 1]
      ∧ ∃ l₁ l₂, [1, 2, 1] = l₁ ++ 1 :: l₂ ∧ (1 : Nat) ∉ l₁
        ∧ unhandle (⟨true, true, false, [1, 2, 1]⟩ : EventSystem Nat) 1
            = (⟨true, true, false, l₁ ++ l₂⟩, none)
        ∧ (fire trivialBeh (⟨true, true, false, l₁ ++ l₂⟩ : EventSystem Nat) () []).trace
            = l₁ ++ l₂)
    ∧ ((3 : Nat) ∉ [1, 2, 1]
      ∧ unhandle (⟨true, true, false, [1, 2, 1]⟩ : EventSystem Nat) 3
        = (⟨true, true, false, [1, 2, 1]⟩,
            some "Handler is not handling this event, so cannot unhandle it.")) :=
  ⟨⟨by decide,
    (unhandle_removes_first_or_errors true false trivialBeh [1, 2, 1] 1 () []).1
      (by decide)⟩,
   ⟨by decide,
    (unhandle_removes_first_or_errors true false trivialBeh [1, 2, 1] 3 () []).2
      (by decide)⟩⟩

/-- Claim C9: `getHandlerCount` tracks live registrations through every
operation: `handle` raises it by one, a successful `unhandle` lowers it by
one, a failed `unhandle` leaves it, `clear` resets it to 0, `fire` (whose
handlers do not register/unregister) leaves the registry, and the count is
never negative. -/
theorem getHandlerCount_tracks_live_registrations {H A : Type} [DecidableEq H]
    (s : EventSystem H) (h : H) (beh0 : H → A → ExecOutcome) (a : A)
    (q : List (H × A)) :
    getHandlerCount (handle s h) = getHandlerCount s + 1
    ∧ (h ∈ s.handler_list →
        getHandlerCount (unhandle s h).1 + 1 = getHandlerCount s)
    ∧ (h ∉ s.handler_list →
        getHandlerCount (unhandle s h).1 = getHandlerCount s)
    ∧ getHandlerCount (clear s) = 0
    ∧ (fire (pureBeh beh0) s a q).registry = s.handler_list
    ∧ 0 ≤ getHandlerCount s := by
  refine ⟨by simp [getHandlerCount, handle], ?_, ?_,
    by simp [getHandlerCount, clear],
    fireGo_pure_registry s.sync_mode s.exc_info s.traceback beh0 a
      s.handler_list s.handler_list q,
    Nat.zero_le _⟩
  · intro hmem
    obtain ⟨l₁, l₂, heq, hnot, hrem⟩ := removeFirst_of_mem s.handler_list h hmem
    have hlen := removeFirst_length s.handler_list h (l₁ ++ l₂) hrem
    simp only [unhandle, hrem, getHandlerCount]
    exact hlen
  · intro hmem
    simp [unhandle, removeFirst_of_not_mem s.handler_list h hmem]

/-- Claim C9 (witness): concrete counts on the registry [5, 7]. -/
theorem getHandlerCount_tracks_live_registrations_witness :
    ((5 : Nat) ∈ [5, 7]
      ∧ getHandlerCount (unhandle (⟨true, true, false, [5, 7]⟩ : EventSystem Nat) 5).1 + 1
          = getHandlerCount (⟨true, true, false, [5, 7]⟩ : EventSystem Nat))
    ∧ ((9 : Nat) ∉ [5, 7]
      ∧ getHandlerCount (unhandle (⟨true, true, false, [5, 7]⟩ : EventSystem Nat) 9).1
          = getHandlerCount (⟨true, true, false, [5, 7]⟩ : EventSystem Nat))
    ∧ getHandlerCount (handle (⟨true, true, false, [5, 7]⟩ : EventSystem Nat) 5)
        = getHandlerCount (⟨true, true, false, [5, 7]⟩ : EventSystem Nat) + 1
    ∧ getHandlerCount (clear (⟨true, true, false, [5, 7]⟩ : EventSystem Nat)) = 0 :=
  ⟨⟨by decide,
    (getHandlerCount_tracks_live_registrations
      (⟨true, true, false, [5, 7]⟩ : EventSystem Nat) 5 trivialOutcome () []).2.1
      (by decide)⟩,
   ⟨by decide,
    (getHandlerCount_tracks_live_registrations
      (⟨true, true, false, [5, 7]⟩ : EventSystem Nat) 9 trivialOutcome () []).2.2.1
      (by decide)⟩,
   (getHandlerCount_tracks_live_registrations
      (⟨true, true, false, [5, 7]⟩ : EventSystem Nat) 5 trivialOutcome () []).1,
   (getHandlerCount_tracks_live_registrations
      (⟨true, true, false, [5, 7]⟩ : EventSystem Nat) 5 trivialOutcome () []).2.2.2.1⟩

/-- Claim C10: a failed `unhandle` (handler not registered) raises the
NotRegistered error and leaves the instance untouched: the same registry,
identical behaviour of subsequent `fire` and `getHandlerCount`. -/
theorem unhandle_absent_leaves_registry_unchanged {H A : Type} [DecidableEq H]
    (s : EventSystem H) (h : H) (beh : H → A → List H → ExecOutcome × List H)
    (a : A) (q : List (H × A)) (hab : h ∉ s.handler_list) :
    (unhandle s h).1 = s
    ∧ (unhandle s h).2
        = some "Handler is not handling this event, so cannot unhandle it."
    ∧ fire beh (unhandle s h).1 a q = fire beh s a q
    ∧ getHandlerCount (unhandle s h).1 = getHandlerCount s := by
  have h1 : unhandle s h
      = (s, some "Handler is not handling this event, so cannot unhandle it.") := by
    simp [unhandle, removeFirst_of_not_mem s.handler_list h hab]
  rw [h1]
  exact ⟨rfl, rfl, rfl, rfl⟩

/-- Claim C10 (witness): unhandling the absent 3 on registry [1, 2]. -/
theorem unhandle_absent_leaves_registry_unchanged_witness :
    (3 : Nat) ∉ [1, 2]
    ∧ ((unhandle (⟨true, true, false, [1, 2]⟩ : EventSystem Nat) 3).1
        = (⟨true, true, false, [1, 2]⟩ : EventSystem Nat)
      ∧ (unhandle (⟨true, true, false, [1, 2]⟩ : EventSystem Nat) 3).2
        = some "Handler is not handling this event, so cannot unhandle it."
      ∧ fire trivialBeh (unhandle (⟨true, true, false, [1, 2]⟩ : EventSystem Nat) 3).1 () []
        = fire trivialBeh (⟨true, true, false, [1, 2]⟩ : EventSystem Nat) () []
      ∧ getHandlerCount (unhandle (⟨true, true, false, [1, 2]⟩ : EventSystem Nat) 3).1
        = getHandlerCount (⟨true, true, false, [1, 2]⟩ : EventSystem Nat)) :=
  ⟨by decide,
    unhandle_absent_leaves_registry_unchanged
      (⟨true, true, false, [1, 2]⟩ : EventSystem Nat) 3 trivialBeh () [] (by decide)⟩

end EventSystemModel
